import Mathlib

/-!
Formal model of `src/sage/sat/solvers/cryptominisat.py`: the `CryptoMiniSat`
adapter class (constructor, `var`, `nvars`, `add_clause`, `add_xor_clause`,
`__call__`, `clauses`).  The underlying CDCL engine (`pycryptosat.Solver`) is
an external dependency; its `solve` behaviour is modelled from the spec.
-/

namespace CryptoMiniSat

/-- A stored clause entry as appended to `self._clauses`: the literal tuple,
the xor flag, and the xor right-hand side (`None` for ordinary clauses). -/
abbrev Triple := List Int × Bool × Option Bool

/-- Python 2 `sys.maxint`, substituted for the conflict limit in `__init__`
when `confl_limit` is `None`. -/
def pyMaxint : Nat := 9223372036854775807

/-- State of a `CryptoMiniSat` instance: the configuration handed to the
underlying solver plus the bookkeeping fields `self._vars` (a set of variable
indices) and `self._clauses` (the recorded clause triples). -/
structure SolverState where
  verbosity : Nat
  conflLimit : Nat
  threads : Nat
  _vars : Finset Nat
  _clauses : List Triple
deriving DecidableEq

/-- `__init__(verbosity, confl_limit, threads)`: `threads=None` defaults to
`ncpus()`, `confl_limit=None` is replaced by `sys.maxint`; the variable set
starts empty and no clauses are recorded. -/
def init (verbosity : Nat) (conflLimit : Option Nat) (threads : Option Nat)
    (ncpus : Nat) : SolverState :=
  { verbosity := verbosity
    conflLimit := conflLimit.getD pyMaxint
    threads := threads.getD ncpus
    _vars := ∅
    _clauses := [] }

/-- `var()`: returns `max(self._vars) + 1`, or `1` when `self._vars` is empty. -/
def SolverState.var (s : SolverState) : Nat :=
  if h : s._vars.Nonempty then s._vars.max' h + 1 else 1

/-- `var()` as a state transformer: the method computes a value from
`self._vars` and performs no mutation. -/
def SolverState.varOp (s : SolverState) : Nat × SolverState := (s.var, s)

/-- `nvars()`: `len(self._vars)`. -/
def SolverState.nvars (s : SolverState) : Nat := s._vars.card

/-- The set `{abs(i) for i in lits}` used to update `self._vars`. -/
def litsVars (lits : List Int) : Finset Nat := (lits.map Int.natAbs).toFinset

/-- `add_clause(lits)`: raises `ValueError` when `0` occurs in `lits`, before
any state is touched; otherwise updates `self._vars`, forwards the clause to
the underlying solver and appends `(lits, False, None)` to `self._clauses`. -/
def SolverState.add_clause (s : SolverState) (lits : List Int) :
    Except String SolverState :=
  if (0 : Int) ∈ lits then
    Except.error "0 should not appear in the clause"
  else
    Except.ok { s with
      _vars := s._vars ∪ litsVars lits
      _clauses := s._clauses ++ [(lits, false, none)] }

/-- `add_xor_clause(lits, rhs)`: same zero-literal check before any mutation;
otherwise updates `self._vars`, forwards the xor clause and appends
`(lits, True, rhs)` to `self._clauses`. -/
def SolverState.add_xor_clause (s : SolverState) (lits : List Int) (rhs : Bool) :
    Except String SolverState :=
  if (0 : Int) ∈ lits then
    Except.error "0 should not appear in the clause"
  else
    Except.ok { s with
      _vars := s._vars ∪ litsVars lits
      _clauses := s._clauses ++ [(lits, true, some rhs)] }

/-- `clauses(filename=None)` with no filename: the stored original clauses,
in insertion order. -/
def SolverState.clauses (s : SolverState) : List Triple := s._clauses

/-- `clauses()` as a state transformer: the method returns `self._clauses`
and performs no mutation. -/
def SolverState.clausesOp (s : SolverState) : List Triple × SolverState :=
  (s._clauses, s)

/-- Verdict of the underlying engine's `solve()`: satisfiable with a model
tuple, proven unsatisfiable, or aborted on budget exhaustion. -/
inductive EngineResult where
  | sat (assignment : List (Option Bool))
  | unsat
  | aborted
deriving DecidableEq

/-- Value returned by `__call__`: the assignment tuple, or Python `False`. -/
inductive CallResult where
  | assignment (a : List (Option Bool))
  | unsatFalse
deriving DecidableEq

/-- Lines 184-188 of the source: `__call__` returns the assignment tuple when
`satisfiable` is truthy; both `False` (proven unsatisfiable) and `None`
(aborted run) are falsy in Python, so both branches return `False`. -/
def adapterOutcome : EngineResult → CallResult
  | .sat a => .assignment a
  | .unsat => .unsatFalse
  | .aborted => .unsatFalse

/-- Truth value of a literal under a total assignment of the variables. -/
def evalLit (f : Nat → Bool) (l : Int) : Bool :=
  if 0 < l then f l.natAbs else ! f l.natAbs

/-- An ordinary clause holds when at least one literal is true. -/
def clauseHolds (f : Nat → Bool) (lits : List Int) : Bool :=
  lits.any (evalLit f)

/-- An xor constraint holds when the parity of its literals equals `rhs`. -/
def xorHolds (f : Nat → Bool) (lits : List Int) (rhs : Bool) : Bool :=
  (lits.foldr (fun l b => xor (evalLit f l) b) false) == rhs

/-- A stored clause triple holds under an assignment `f`. -/
def tripleHolds (f : Nat → Bool) : Triple → Bool
  | (lits, false, _) => clauseHolds f lits
  | (lits, true, rhs) => xorHolds f lits (rhs.getD true)

/-- All total assignments of variables `1..n`, as vectors of length `n`. -/
def allBoolLists : Nat → List (List Bool)
  | 0 => [[]]
  | n + 1 => (allBoolLists n).map (List.cons false) ++ (allBoolLists n).map (List.cons true)

/-- Largest absolute literal value occurring in a clause list. -/
def maxAbsLit (cls : List Triple) : Nat :=
  cls.foldr (fun t m => max (t.1.foldr (fun l m2 => max l.natAbs m2) 0) m) 0

/-- Variable `v` read from a length-`n` assignment vector (index `v - 1`). -/
def vecFun (bs : List Bool) : Nat → Bool := fun v => bs.getD (v - 1) false

/-- Modelled from the spec: the CDCL engine behind `self._solver.solve()`
(`pycryptosat.Solver`) is not part of this repository.  Per the spec, on a
satisfiable instance `solve` returns an assignment sequence indexed `1..N`
with entry `0` unset, where `N` is the engine's variable count, auto-extended
to cover `max(|literal|)`, and the assignment satisfies every clause and every
xor constraint; otherwise the instance is proven `Unsatisfiable`. -/
def engineSolve (cls : List Triple) : EngineResult :=
  match (allBoolLists (maxAbsLit cls)).find?
      (fun bs => cls.all (tripleHolds (vecFun bs))) with
  | some bs => .sat ((none : Option Bool) :: bs.map some)
  | none => .unsat

/-- Modelled from the spec: the engine's cooperative budget check ("abort
after this many conflicts") fires once the conflict count reaches the
configured limit. -/
def budgetExhausted (limit conflicts : Nat) : Bool := limit ≤ conflicts

/-- `__call__(assumptions=None)`: the body never forwards `assumptions`; it
calls `self._solver.solve()` with no arguments and branches on the truthiness
of the verdict. -/
def SolverState.call (s : SolverState) (assumptions : Option (List Int)) :
    CallResult :=
  adapterOutcome (engineSolve s._clauses)

/-- A caller-driven mutation: one `add_clause` or `add_xor_clause` call. -/
inductive Op where
  | addC (lits : List Int)
  | addX (lits : List Int) (rhs : Bool)

/-- Apply one operation to an instance. -/
def SolverState.applyOp (s : SolverState) : Op → Except String SolverState
  | .addC lits => s.add_clause lits
  | .addX lits rhs => s.add_xor_clause lits rhs

/-- Run a sequence of operations, stopping at the first raised error. -/
def SolverState.run (s : SolverState) : List Op → Except String SolverState
  | [] => Except.ok s
  | op :: ops =>
    match s.applyOp op with
    | Except.ok s2 => s2.run ops
    | Except.error e => Except.error e

/-- The triple that an operation appends to `self._clauses`. -/
def opTriple : Op → Triple
  | .addC lits => (lits, false, none)
  | .addX lits rhs => (lits, true, some rhs)

/-- The literal tuple of an operation. -/
def opLits : Op → List Int
  | .addC lits => lits
  | .addX lits _ => lits

/-- All absolute literal values referenced by a sequence of operations. -/
def opsAbsVars : List Op → Finset Nat
  | [] => ∅
  | op :: ops => litsVars (opLits op) ∪ opsAbsVars ops

/-- Truth value of variable `v` in a returned assignment tuple (`false` when
the entry is absent or unset). -/
def assignVal (a : List (Option Bool)) (v : Nat) : Bool :=
  (a.getD v none).getD false

/-- Every stored literal is nonzero — an invariant of reachable instances,
since both adders reject the literal `0`. -/
def wfb (s : SolverState) : Bool :=
  s._clauses.all (fun t => t.1.all (fun l => ! (l == 0)))

/-- A freshly constructed instance (one thread, default conflict limit). -/
def s0 : SolverState := init 0 none (some 1) 1

/-- The three clauses of the satisfiable scenario `{(1,2),(-1,2),(-1,-2)}`. -/
def ops1 : List Op := [Op.addC [1, 2], Op.addC [-1, 2], Op.addC [-1, -2]]

/-- The instance after adding the three clauses of `ops1`. -/
def exState1 : SolverState := ((s0.run ops1).toOption).getD s0

/-- The single clause `(1, -2, 4)` of the variable-count scenario. -/
def ops4 : List Op := [Op.addC [1, -2, 4]]

/-- The instance after `add_clause((1, -2, 4))`. -/
def exState4 : SolverState := ((s0.run ops4).toOption).getD s0

/-- The clause `(-1, 2, -4)` from the `var()` docstring example. -/
def opsV : List Op := [Op.addC [-1, 2, -4]]

/-- The instance after `add_clause((-1, 2, -4))`. -/
def exStateV : SolverState := ((s0.run opsV).toOption).getD s0

/-- The previous instance after one further `add_clause((1,))`. -/
def exStateV2 : SolverState := ((exStateV.add_clause [1]).toOption).getD exStateV

/-- The four clauses `{(1,2),(-1,2),(-1,-2),(1,-2)}` of the unsatisfiable
scenario. -/
def ops2 : List Op :=
  [Op.addC [1, 2], Op.addC [-1, 2], Op.addC [-1, -2], Op.addC [1, -2]]

/-- The instance after adding the four clauses of `ops2`. -/
def exState2 : SolverState := ((s0.run ops2).toOption).getD s0

/-- An ordinary clause followed by an xor clause with `rhs=False`. -/
def ops9 : List Op := [Op.addC [1, 2], Op.addX [1, 2, 3] false]

/-- The instance after the two additions of `ops9`. -/
def exState9 : SolverState := ((s0.run ops9).toOption).getD s0

/-- Length of the tuple returned by `__call__` when it reports satisfiable
(`none` when it returns `False`). -/
def callAssignmentLength (s : SolverState) : Option Nat :=
  match s.call none with
  | CallResult.assignment a => some a.length
  | CallResult.unsatFalse => none

/-- A successful `add_clause` grows `_vars` by the literal set and appends the
ordinary triple. -/
theorem add_clause_ok {s s2 : SolverState} {lits : List Int}
    (h : s.add_clause lits = Except.ok s2) :
    s2._vars = s._vars ∪ litsVars lits ∧
      s2._clauses = s._clauses ++ [(lits, false, none)] := by
  unfold SolverState.add_clause at h
  split at h
  · cases h
  · cases h
    exact ⟨rfl, rfl⟩

/-- A successful `add_xor_clause` grows `_vars` by the literal set and appends
the xor triple. -/
theorem add_xor_clause_ok {s s2 : SolverState} {lits : List Int} {rhs : Bool}
    (h : s.add_xor_clause lits rhs = Except.ok s2) :
    s2._vars = s._vars ∪ litsVars lits ∧
      s2._clauses = s._clauses ++ [(lits, true, some rhs)] := by
  unfold SolverState.add_xor_clause at h
  split at h
  · cases h
  · cases h
    exact ⟨rfl, rfl⟩

/-- A successful operation grows `_vars` by its literal set and appends its
triple. -/
theorem applyOp_ok {s s2 : SolverState} {op : Op}
    (h : s.applyOp op = Except.ok s2) :
    s2._vars = s._vars ∪ litsVars (opLits op) ∧
      s2._clauses = s._clauses ++ [opTriple op] := by
  cases op with
  | addC lits => exact add_clause_ok h
  | addX lits rhs => exact add_xor_clause_ok h

/-- A successful run of operations accumulates exactly the referenced variable
set and the recorded triples, in order. -/
theorem run_ok {ops : List Op} {s s2 : SolverState}
    (h : s.run ops = Except.ok s2) :
    s2._vars = s._vars ∪ opsAbsVars ops ∧
      s2._clauses = s._clauses ++ ops.map opTriple := by
  induction ops generalizing s with
  | nil =>
    cases h
    simp [opsAbsVars]
  | cons op ops ih =>
    unfold SolverState.run at h
    cases hop : s.applyOp op with
    | error e => rw [hop] at h; cases h
    | ok smid =>
      rw [hop] at h
      obtain ⟨hv, hc⟩ := applyOp_ok hop
      obtain ⟨hv2, hc2⟩ := ih h
      constructor
      · rw [hv2, hv, opsAbsVars]
        rw [Finset.union_assoc]
      · rw [hc2, hc]
        simp [opTriple, List.append_assoc]

/-- `var()` is at least 1. -/
theorem var_pos (s : SolverState) : 1 ≤ s.var := by
  unfold SolverState.var
  split
  · exact Nat.le_add_left 1 _
  · exact Nat.le_refl 1

/-- `var()` returns an identifier not in the current variable set. -/
theorem var_not_mem (s : SolverState) : s.var ∉ s._vars := by
  unfold SolverState.var
  split
  · intro hmem
    have := Finset.le_max' s._vars _ hmem
    omega
  · intro hmem
    rename_i hne
    exact hne ⟨1, hmem⟩

/-- Every current variable is strictly below `var()`. -/
theorem vars_subset_range (s : SolverState) : s._vars ⊆ Finset.range s.var := by
  intro v hv
  rw [Finset.mem_range]
  unfold SolverState.var
  split
  · have := Finset.le_max' s._vars v hv
    omega
  · rename_i hne
    exact absurd ⟨v, hv⟩ hne

/-- `var()` is monotone with respect to growth of the variable set. -/
theorem var_mono {s t : SolverState} (h : s._vars ⊆ t._vars) :
    s.var ≤ t.var := by
  unfold SolverState.var
  split
  · rename_i hs
    have ht : t._vars.Nonempty := hs.mono h
    rw [dif_pos ht]
    have := Finset.max'_subset hs h
    omega
  · have := var_pos t
    unfold SolverState.var at this
    omega

/-- Nonzero literals have positive variable index, so two assignments that
agree on indices `≥ 1` evaluate them identically. -/
theorem evalLit_congr {f g : Nat → Bool} (hfg : ∀ v, 1 ≤ v → f v = g v)
    {l : Int} (hl : l ≠ 0) : evalLit f l = evalLit g l := by
  have hpos : 1 ≤ l.natAbs := Int.natAbs_pos.mpr hl
  unfold evalLit
  rw [hfg _ hpos]

/-- Clause evaluation only inspects the assignment at positive indices. -/
theorem clauseHolds_congr {f g : Nat → Bool} (hfg : ∀ v, 1 ≤ v → f v = g v)
    {lits : List Int} (hl : ∀ l ∈ lits, l ≠ 0) :
    clauseHolds f lits = clauseHolds g lits := by
  unfold clauseHolds
  induction lits with
  | nil => rfl
  | cons x xs ih =>
    rw [List.any_cons, List.any_cons,
      evalLit_congr hfg (hl x (List.mem_cons_self x xs)),
      ih (fun l hm => hl l (List.mem_cons_of_mem x hm))]

/-- Xor evaluation only inspects the assignment at positive indices. -/
theorem xorHolds_congr {f g : Nat → Bool} (hfg : ∀ v, 1 ≤ v → f v = g v)
    {lits : List Int} {rhs : Bool} (hl : ∀ l ∈ lits, l ≠ 0) :
    xorHolds f lits rhs = xorHolds g lits rhs := by
  unfold xorHolds
  have : lits.foldr (fun l b => xor (evalLit f l) b) false =
      lits.foldr (fun l b => xor (evalLit g l) b) false := by
    induction lits with
    | nil => rfl
    | cons x xs ih =>
      rw [List.foldr_cons, List.foldr_cons,
        evalLit_congr hfg (hl x (List.mem_cons_self x xs)),
        ih (fun l hm => hl l (List.mem_cons_of_mem x hm))]
  rw [this]

/-- Triple evaluation only inspects the assignment at positive indices. -/
theorem tripleHolds_congr {f g : Nat → Bool} (hfg : ∀ v, 1 ≤ v → f v = g v)
    {t : Triple} (hl : ∀ l ∈ t.1, l ≠ 0) :
    tripleHolds f t = tripleHolds g t := by
  obtain ⟨lits, flag, rhs⟩ := t
  cases flag with
  | false => exact clauseHolds_congr hfg hl
  | true => exact xorHolds_congr hfg hl

/-- Reading a `map some` list through a double default agrees with reading the
underlying boolean list. -/
theorem getD_map_some (bs : List Bool) (k : Nat) :
    ((bs.map some).getD k none).getD false = bs.getD k false := by
  induction bs generalizing k with
  | nil => simp [List.getD]
  | cons b t ih =>
    cases k with
    | zero => simp [List.getD]
    | succ k =>
      rw [List.map_cons, List.getD_cons_succ, List.getD_cons_succ]
      exact ih k

/-- At positive indices, the returned assignment tuple `none :: bs.map some`
reads the same values as the raw vector `bs`. -/
theorem assignVal_cons_map (bs : List Bool) {v : Nat} (hv : 1 ≤ v) :
    assignVal ((none : Option Bool) :: bs.map some) v = vecFun bs v := by
  obtain ⟨k, rfl⟩ : ∃ k, v = k + 1 := ⟨v - 1, by omega⟩
  unfold assignVal vecFun
  rw [List.getD_cons_succ, Nat.add_sub_cancel]
  exact getD_map_some bs k

/-- Every vector enumerated for `n` variables has length `n`. -/
theorem allBoolLists_length {n : Nat} {bs : List Bool}
    (h : bs ∈ allBoolLists n) : bs.length = n := by
  induction n generalizing bs with
  | zero =>
    unfold allBoolLists at h
    rw [List.mem_singleton] at h
    rw [h]
    rfl
  | succ n ih =>
    unfold allBoolLists at h
    rw [List.mem_append, List.mem_map, List.mem_map] at h
    rcases h with ⟨cs, hcs, rfl⟩ | ⟨cs, hcs, rfl⟩ <;>
      simp [ih hcs]

/-- `__call__` only ever hands out an assignment produced by a `sat` verdict
of the engine. -/
theorem call_assignment_inv {s : SolverState} {a : Option (List Int)}
    {asgn : List (Option Bool)} (h : s.call a = CallResult.assignment asgn) :
    engineSolve s._clauses = EngineResult.sat asgn := by
  unfold SolverState.call at h
  cases he : engineSolve s._clauses with
  | sat a2 =>
    rw [he] at h
    unfold adapterOutcome at h
    cases h
    rfl
  | unsat => rw [he] at h; cases h
  | aborted => rw [he] at h; cases h

/-- A `sat` verdict of the modelled engine comes from a found vector that
satisfies all stored triples. -/
theorem engineSolve_sat_inv {cls : List Triple} {asgn : List (Option Bool)}
    (h : engineSolve cls = EngineResult.sat asgn) :
    ∃ bs, (allBoolLists (maxAbsLit cls)).find?
        (fun bs => cls.all (tripleHolds (vecFun bs))) = some bs ∧
      asgn = (none : Option Bool) :: bs.map some := by
  unfold engineSolve at h
  cases hf : (allBoolLists (maxAbsLit cls)).find?
      (fun bs => cls.all (tripleHolds (vecFun bs))) with
  | none => rw [hf] at h; cases h
  | some bs =>
    rw [hf] at h
    cases h
    exact ⟨bs, rfl, rfl⟩

/-- C1: whenever `__call__` reports satisfiable, the assignment it returns
satisfies every clause previously added with `add_clause` (at least one
literal true) and every xor constraint previously added with
`add_xor_clause` (parity of the listed literals equals `rhs`). -/
theorem call_sat_satisfies_all (s : SolverState) (a : Option (List Int))
    (asgn : List (Option Bool)) (hwf : wfb s = true)
    (h : s.call a = CallResult.assignment asgn) :
    s._clauses.all (tripleHolds (assignVal asgn)) = true := by
  obtain ⟨bs, hf, rfl⟩ := engineSolve_sat_inv (call_assignment_inv h)
  have hpred := List.find?_some hf
  rw [List.all_eq_true] at hpred ⊢
  intro t ht
  have hnz : ∀ l ∈ t.1, l ≠ 0 := by
    unfold wfb at hwf
    rw [List.all_eq_true] at hwf
    have := hwf t ht
    rw [List.all_eq_true] at this
    intro l hl
    have h0 := this l hl
    simpa using h0
  rw [tripleHolds_congr (fun v hv => assignVal_cons_map bs hv) hnz]
  exact hpred t ht

/-- C1 witness: on the instance holding `{(1,2),(-1,2),(-1,-2)}`, `__call__`
returns the assignment `(None, False, True)`, and it satisfies all clauses. -/
theorem call_sat_satisfies_all_witness :
    wfb exState1 = true ∧
      exState1._clauses.all
        (tripleHolds (assignVal [none, some false, some true])) = true :=
  ⟨by decide,
    call_sat_satisfies_all exState1 none [none, some false, some true]
      (by decide) (by decide)⟩

/-- C2: `__call__` never forwards its `assumptions` argument to the underlying
solve call, so for every state and every assumptions value the result equals
that of `__call__` with no assumptions. -/
theorem call_ignores_assumptions (s : SolverState) (a : Option (List Int)) :
    s.call a = s.call none := rfl

/-- C3 counterexample: on a fresh instance, two consecutive `var()` calls with
no intervening operation both return `1` — not distinct values, because
`var()` does not reserve or record the identifier it returns. -/
theorem var_consecutive_equal_cex :
    s0.varOp.1 = 1 ∧ (s0.varOp.2).varOp.1 = 1 := by decide

/-- C3 amended: `var()` returns a 1-based identifier that is unused (outside
the current variable set and strictly above every member), and its value never
decreases as clauses are added; but `var()` leaves the instance unchanged, so
consecutive calls with no intervening operation return the same value rather
than distinct ones. -/
theorem var_fresh_and_monotone (s s2 : SolverState) (lits : List Int)
    (h : s.add_clause lits = Except.ok s2) :
    1 ≤ s.var ∧ s.var ∉ s._vars ∧ s._vars ⊆ Finset.range s.var ∧
      s.var ≤ s2.var ∧ s.varOp.2 = s :=
  ⟨var_pos s, var_not_mem s, vars_subset_range s,
    var_mono (by rw [(add_clause_ok h).1]; exact Finset.subset_union_left),
    rfl⟩

/-- C3 witness: on the instance holding `(-1, 2, -4)` (the docstring example,
where `var()` returns 5), the amended properties hold concretely. -/
theorem var_fresh_and_monotone_witness :
    1 ≤ exStateV.var ∧ exStateV.var ∉ exStateV._vars ∧
      exStateV._vars ⊆ Finset.range exStateV.var ∧
      exStateV.var ≤ exStateV2.var ∧ exStateV.varOp.2 = exStateV :=
  var_fresh_and_monotone exStateV exStateV2 [1] (by rfl)

/-- C4 counterexample: after `add_clause((1,-2,4))`, `nvars()` is `3` while the
maximum absolute literal added is `4`, so `nvars()` does not equal
`max(|literal|)`. -/
theorem nvars_ne_max_abs_literal_cex :
    exState4.nvars = 3 ∧ maxAbsLit exState4._clauses = 4 ∧ (3 : Nat) ≠ 4 := by
  refine ⟨by decide, by decide, by decide⟩

/-- C4 amended: `nvars()` equals the number of distinct absolute values among
the literals added so far (the cardinality of the accumulated variable set),
not the maximum absolute literal; on a fresh solver it is `0`, and after
`add_clause((1,-2,4))` it is `3`. -/
theorem nvars_counts_distinct_vars (v ncpu : Nat) (cl th : Option Nat)
    (ops : List Op) (s2 : SolverState)
    (h : (init v cl th ncpu).run ops = Except.ok s2) :
    (init v cl th ncpu).nvars = 0 ∧ s2.nvars = (opsAbsVars ops).card := by
  refine ⟨rfl, ?_⟩
  have hv := (run_ok h).1
  unfold SolverState.nvars
  rw [hv]
  show ((∅ : Finset Nat) ∪ opsAbsVars ops).card = (opsAbsVars ops).card
  rw [Finset.empty_union]

/-- C4 witness: the fresh instance has `nvars() = 0` and the instance after
`add_clause((1,-2,4))` has `nvars()` equal to the number of distinct variables
referenced, namely 3. -/
theorem nvars_counts_distinct_vars_witness :
    (init 0 none (some 1) 1).nvars = 0 ∧
      exState4.nvars = (opsAbsVars ops4).card :=
  nvars_counts_distinct_vars 0 1 none (some 1) ops4 exState4 (by rfl)

/-- C5 counterexample: the branch at the end of `__call__` maps the engine's
`aborted` verdict and its `unsat` verdict to the very same Python value
`False`, so the aborted result a caller sees is not distinguishable from the
unsatisfiable one. -/
theorem aborted_returns_false_cex :
    adapterOutcome EngineResult.aborted = CallResult.unsatFalse ∧
      adapterOutcome EngineResult.unsat = CallResult.unsatFalse := by decide

/-- C5 amended: at the engine interface the aborted verdict is a value
distinct from the unsatisfiable one, but `__call__` collapses both to
`False`: a caller of `__call__` cannot tell an aborted (unknown) run from a
proven-unsatisfiable one by the returned value. -/
theorem aborted_indistinguishable_after_call :
    EngineResult.aborted ≠ EngineResult.unsat ∧
      adapterOutcome EngineResult.aborted = adapterOutcome EngineResult.unsat := by
  decide

/-- C6 counterexample: constructing with `confl_limit=None` stores the finite
conflict limit `sys.maxint = 2^63 - 1`, and the engine's budget check does
fire once that many conflicts are reached — the search is still limited by a
conflict budget. -/
theorem confl_limit_none_still_finite_cex :
    (init 0 none (some 1) 1).conflLimit = 9223372036854775807 ∧
      budgetExhausted (init 0 none (some 1) 1).conflLimit
        9223372036854775807 = true := by
  refine ⟨rfl, by decide⟩

/-- C6 amended: constructing with `confl_limit=None` succeeds and sets the
conflict limit to `sys.maxint = 2^63 - 1`: the search never aborts before
`2^63 - 1` conflicts (effectively unlimited), but the budget is a finite
bound, not literally no bound. -/
theorem confl_limit_none_effectively_unlimited (v th ncpu c : Nat)
    (h : c < 9223372036854775807) :
    (init v none (some th) ncpu).conflLimit = 9223372036854775807 ∧
      budgetExhausted (init v none (some th) ncpu).conflLimit c = false := by
  refine ⟨rfl, ?_⟩
  have h2 : (init v none (some th) ncpu).conflLimit = 9223372036854775807 := rfl
  unfold budgetExhausted
  rw [h2]
  exact decide_eq_false (by omega)

/-- C6 witness: a run with one million conflicts does not exhaust the default
budget. -/
theorem confl_limit_none_effectively_unlimited_witness :
    1000000 < 9223372036854775807 ∧
      ((init 0 none (some 1) 1).conflLimit = 9223372036854775807 ∧
        budgetExhausted (init 0 none (some 1) 1).conflLimit 1000000 = false) :=
  ⟨by decide, confl_limit_none_effectively_unlimited 0 1 1 1000000 (by decide)⟩

/-- C8: a literal sequence containing `0` is rejected by both `add_clause`
and `add_xor_clause` with the `ValueError`, and the rejection happens before
any mutation: the call produces only the error and no successor state, so
`_vars`, `_clauses` and the underlying solver are exactly as before. -/
theorem zero_literal_rejected_atomically (s : SolverState) (lits : List Int)
    (rhs : Bool) (h : (0 : Int) ∈ lits) :
    s.add_clause lits = Except.error "0 should not appear in the clause" ∧
      s.add_xor_clause lits rhs =
        Except.error "0 should not appear in the clause" := by
  constructor
  · unfold SolverState.add_clause
    rw [if_pos h]
  · unfold SolverState.add_xor_clause
    rw [if_pos h]

/-- C8 witness: `(1, 0, -2)` contains `0` and both adders reject it. -/
theorem zero_literal_rejected_atomically_witness :
    (0 : Int) ∈ [(1 : Int), 0, -2] ∧
      (s0.add_clause [1, 0, -2] =
          Except.error "0 should not appear in the clause" ∧
        s0.add_xor_clause [1, 0, -2] true =
          Except.error "0 should not appear in the clause") :=
  ⟨by decide, zero_literal_rejected_atomically s0 [1, 0, -2] true (by decide)⟩

/-- C9: `clauses()` with no filename returns exactly the caller-added clauses
in insertion order, as `(lits, False, None)` for `add_clause` additions and
`(lits, True, rhs)` for `add_xor_clause` additions. -/
theorem clauses_insertion_order (s s2 : SolverState) (ops : List Op)
    (h : s.run ops = Except.ok s2) :
    s2.clauses = s.clauses ++ ops.map opTriple :=
  (run_ok h).2

/-- C9 witness: after `add_clause((1,2))` and `add_xor_clause((1,2,3), False)`
the exported list is the two triples in insertion order. -/
theorem clauses_insertion_order_witness :
    exState9.clauses = s0.clauses ++ ops9.map opTriple :=
  clauses_insertion_order s0 exState9 ops9 (by rfl)

/-- C10: `clauses()` leaves the instance unchanged, and two consecutive calls
with no intervening addition return identical lists. -/
theorem clauses_idempotent (s : SolverState) :
    s.clausesOp.2 = s ∧ (s.clausesOp.2).clausesOp.1 = s.clausesOp.1 :=
  ⟨rfl, rfl⟩

/-- C7 counterexample: after `add_clause((1,-2,4))` the satisfiable `__call__`
returns a tuple of length `5` (the engine covers variables `1..4`), while
`nvars() + 1 = 4`: the tuple length is not `nvars() + 1`. -/
theorem call_length_ne_nvars_cex :
    callAssignmentLength exState4 = some 5 ∧ exState4.nvars + 1 = 4 ∧
      (5 : Nat) ≠ 4 := by
  refine ⟨by decide, by decide, by decide⟩

/-- C7 amended: when `__call__` reports satisfiable it returns a tuple whose
`0`-th entry is `None` and whose length is `max(|literal|) + 1` — the engine's
variable count plus one, which coincides with `nvars() + 1` only when the used
variables form the contiguous range `1..N`; and when the instance is proven
unsatisfiable `__call__` returns the `False` result. -/
theorem call_result_shape (s : SolverState) (a : Option (List Int)) :
    (∀ asgn, s.call a = CallResult.assignment asgn →
        asgn.length = maxAbsLit s._clauses + 1 ∧ asgn.headD (some true) = none) ∧
      (engineSolve s._clauses = EngineResult.unsat →
        s.call a = CallResult.unsatFalse) := by
  constructor
  · intro asgn h
    obtain ⟨bs, hf, rfl⟩ := engineSolve_sat_inv (call_assignment_inv h)
    have hlen := allBoolLists_length (List.mem_of_find?_eq_some hf)
    constructor
    · rw [List.length_cons, List.length_map, hlen]
    · rfl
  · intro hu
    unfold SolverState.call
    rw [hu]
    rfl

/-- C7 witness: the satisfiable instance of Scenario 1 yields a tuple whose
length is `max(|literal|) + 1 = 3` with `0`-th entry `None`, and on the
unsatisfiable instance of Scenario 2 `__call__` returns `False`. -/
theorem call_result_shape_witness :
    (([none, some false, some true] : List (Option Bool)).length =
        maxAbsLit exState1._clauses + 1 ∧
      ([none, some false, some true] : List (Option Bool)).headD (some true) =
        none) ∧
      exState2.call none = CallResult.unsatFalse :=
  ⟨(call_result_shape exState1 none).1 [none, some false, some true]
      (by decide),
    (call_result_shape exState2 none).2 (by decide)⟩

end CryptoMiniSat
